import Mathlib

/-
Verification of the clickstream control-plane pipeline metadata store
(`src/control-plane/backend/lambda/api/store/dynamodb/dynamodb-store.ts`)
and pipeline service (`.../api/service/pipeline.ts`).

The DynamoDB table is embedded as a list of wide records (`Item`), one
field per attribute the store reads or writes.  DynamoDB operations are
embedded by their documented semantics: `GetItem` is a key lookup,
`PutItem` replaces the whole item at a key, `UpdateItem` rewrites the
listed attributes of the item at a key (conditional updates fail with
`ConditionalCheckFailedException` when the condition does not hold,
including when the item is absent and the condition reads an attribute),
and `TransactWriteItems` applies both writes only when every condition
holds against the pre-transaction table (all-or-nothing).  The
`prefix`-plus-time GSI used by the listing queries is embedded as
"filter then sort by the insertion-time attribute `createAt`".

The source's `prefix` attribute is named `pfx` here because Lean reserves
that word.  Opaque configuration blobs (network, bucket, ingestionServer,
etl, dataAnalytics, report, workflow) are carried as opaque strings: the
store never inspects them, it only copies them.  A pipeline's `status`
object is modelled by its status string.
-/

namespace ClickStream

/-- One table item: a wide record with one field per attribute that any
store operation reads or writes.  Absent attributes are represented by the
default value of the field. -/
structure Item where
  id : String := ""
  type : String := ""
  pfx : String := ""
  name : String := ""
  description : String := ""
  emails : String := ""
  platform : String := ""
  region : String := ""
  environment : String := ""
  status : Option String := none
  projectId : String := ""
  appId : String := ""
  androidPackage : String := ""
  iosBundleId : String := ""
  iosAppStoreId : String := ""
  pipelineId : String := ""
  dataCollectionSDK : String := ""
  tags : List String := []
  network : String := ""
  bucket : String := ""
  ingestionServer : String := ""
  etl : String := ""
  dataAnalytics : String := ""
  report : String := ""
  workflow : String := ""
  executionName : String := ""
  executionArn : String := ""
  version : String := ""
  versionTag : String := ""
  jarFile : String := ""
  dependencyFiles : Option (List String) := none
  mainFunction : String := ""
  pluginType : String := ""
  builtIn : Bool := false
  bindCount : Nat := 0
  createAt : Nat := 0
  updateAt : Nat := 0
  operator : String := ""
  deleted : Bool := false
deriving DecidableEq

/-- The single wide table (`clickStreamTableName`). -/
abbrev Table := List Item

/-- Partition/sort key match: DynamoDB items are addressed by (id, type). -/
def keyMatch (x : Item) (i ty : String) : Bool :=
  x.id == i && x.type == ty

/-- GetItem: first item whose key matches. -/
def getItem (t : Table) (i ty : String) : Option Item :=
  t.find? (fun x => keyMatch x i ty)

/-- PutItem: replace the item at the key, or append a new one. -/
def putItem (t : Table) (it : Item) : Table :=
  if t.any (fun x => keyMatch x it.id it.type)
  then t.map (fun x => if keyMatch x it.id it.type then it else x)
  else t ++ [it]

/-- UpdateItem at a key: rewrite the item's attributes with `f`. -/
def mapUpd (t : Table) (i ty : String) (f : Item → Item) : Table :=
  t.map (fun x => if keyMatch x i ty then f x else x)

theorem keyMatch_eq_true {x : Item} {i ty : String} :
    keyMatch x i ty = true ↔ x.id = i ∧ x.type = ty := by
  simp [keyMatch]

theorem getItem_keys {t : Table} {i ty : String} {x : Item}
    (h : getItem t i ty = some x) : x.id = i ∧ x.type = ty := by
  have := List.find?_some h
  exact keyMatch_eq_true.mp this

theorem getItem_mem {t : Table} {i ty : String} {x : Item}
    (h : getItem t i ty = some x) : x ∈ t :=
  List.mem_of_find?_eq_some h

/-- Find over a key-preserving map commutes with the map. -/
theorem getItem_map (t : Table) (g : Item → Item)
    (hg : ∀ x, (g x).id = x.id ∧ (g x).type = x.type) (i ty : String) :
    getItem (t.map g) i ty = (getItem t i ty).map g := by
  induction t with
  | nil => rfl
  | cons a as ih =>
    simp only [getItem, List.map_cons, List.find?_cons] at *
    have h1 : keyMatch (g a) i ty = keyMatch a i ty := by
      simp [keyMatch, (hg a).1, (hg a).2]
    rw [h1]
    cases h : keyMatch a i ty with
    | true => rfl
    | false => exact ih

theorem mapUpd_keys (i ty : String) (f : Item → Item)
    (hf : ∀ x, (f x).id = x.id ∧ (f x).type = x.type) :
    ∀ x, ((fun x => if keyMatch x i ty then f x else x) x).id = x.id ∧
         ((fun x => if keyMatch x i ty then f x else x) x).type = x.type := by
  intro x
  by_cases h : keyMatch x i ty = true
  · simp [h, hf x]
  · simp [h]

theorem getItem_mapUpd_self (t : Table) (i ty : String) (f : Item → Item)
    (hf : ∀ x, (f x).id = x.id ∧ (f x).type = x.type) :
    getItem (mapUpd t i ty f) i ty = (getItem t i ty).map f := by
  unfold mapUpd
  rw [getItem_map t _ (mapUpd_keys i ty f hf) i ty]
  cases h : getItem t i ty with
  | none => rfl
  | some x =>
    have hx := List.find?_some h
    simp [hx]

theorem getItem_mapUpd_other (t : Table) (i ty i' ty' : String) (f : Item → Item)
    (hf : ∀ x, (f x).id = x.id ∧ (f x).type = x.type)
    (hne : ¬(i' = i ∧ ty' = ty)) :
    getItem (mapUpd t i ty f) i' ty' = getItem t i' ty' := by
  unfold mapUpd
  rw [getItem_map t _ (mapUpd_keys i ty f hf) i' ty']
  cases h : getItem t i' ty' with
  | none => rfl
  | some x =>
    have hk := getItem_keys h
    have : keyMatch x i ty = false := by
      cases hm : keyMatch x i ty with
      | false => rfl
      | true =>
        exact absurd ⟨hk.1 ▸ (keyMatch_eq_true.mp hm).1,
          hk.2 ▸ (keyMatch_eq_true.mp hm).2⟩ hne
    simp [this]

theorem getItem_putItem_self (t : Table) (it : Item) :
    getItem (putItem t it) it.id it.type = some it := by
  unfold putItem
  split
  case isTrue h =>
    have hg : ∀ x, ((fun x => if keyMatch x it.id it.type then it else x) x).id = x.id ∧
        ((fun x => if keyMatch x it.id it.type then it else x) x).type = x.type := by
      intro x
      by_cases hm : keyMatch x it.id it.type = true
      · have := keyMatch_eq_true.mp hm
        simp [hm, this.1, this.2]
      · simp [hm]
    rw [getItem_map t _ hg it.id it.type]
    rw [List.any_eq_true] at h
    obtain ⟨x, hx, hm⟩ := h
    cases hfind : getItem t it.id it.type with
    | none =>
      unfold getItem at hfind
      rw [List.find?_eq_none] at hfind
      exact absurd hm (by simpa using hfind x hx)
    | some y =>
      have hy := List.find?_some hfind
      simp [hy]
  case isFalse h =>
    unfold getItem
    rw [List.find?_append]
    have h1 : t.find? (fun x => keyMatch x it.id it.type) = none := by
      rw [List.find?_eq_none]
      intro x hx
      rw [List.any_eq_true] at h
      push_neg at h
      simp [h x hx]
    rw [h1]
    simp [List.find?, keyMatch]

theorem getItem_putItem_other (t : Table) (it : Item) (i ty : String)
    (hne : ¬(i = it.id ∧ ty = it.type)) :
    getItem (putItem t it) i ty = getItem t i ty := by
  unfold putItem
  split
  case isTrue h =>
    have hg : ∀ x, ((fun x => if keyMatch x it.id it.type then it else x) x).id = x.id ∧
        ((fun x => if keyMatch x it.id it.type then it else x) x).type = x.type := by
      intro x
      by_cases hm : keyMatch x it.id it.type = true
      · have := keyMatch_eq_true.mp hm
        simp [hm, this.1, this.2]
      · simp [hm]
    rw [getItem_map t _ hg i ty]
    cases hfind : getItem t i ty with
    | none => rfl
    | some x =>
      have hk := getItem_keys hfind
      have : keyMatch x it.id it.type = false := by
        cases hm : keyMatch x it.id it.type with
        | false => rfl
        | true =>
          have hm' := keyMatch_eq_true.mp hm
          exact absurd ⟨hk.1 ▸ hm'.1, hk.2 ▸ hm'.2⟩ hne
      simp [this]
  case isFalse h =>
    unfold getItem
    rw [List.find?_append]
    have h2 : keyMatch it i ty = false := by
      cases hm : keyMatch it i ty with
      | false => rfl
      | true =>
        have hm' := keyMatch_eq_true.mp hm
        exact absurd ⟨hm'.1.symm, hm'.2.symm⟩ hne
    cases hfind : List.find? (fun x => keyMatch x i ty) t with
    | none => simp [List.find?, h2]
    | some x => simp

/-
Sorting and queries.  Listing queries run on the `prefix`-plus-time GSI:
key condition on the `prefix` attribute, server-side filter expression,
ordered by the insertion-time attribute (modelled as `createAt`),
ascending when ScanIndexForward, i.e. when `order == "asc"`.
-/

/-- Comparison on the GSI's time attribute, flipped by ScanIndexForward. -/
def timeLe (asc : Bool) (a b : Item) : Bool :=
  if asc then decide (a.createAt ≤ b.createAt) else decide (b.createAt ≤ a.createAt)

def insertBy (le : Item → Item → Bool) (x : Item) : List Item → List Item
  | [] => [x]
  | y :: ys => if le x y then x :: y :: ys else y :: insertBy le x ys

def sortBy (le : Item → Item → Bool) : List Item → List Item
  | [] => []
  | x :: xs => insertBy le x (sortBy le xs)

theorem mem_insertBy {le : Item → Item → Bool} {x a : Item} {l : List Item} :
    a ∈ insertBy le x l ↔ a = x ∨ a ∈ l := by
  induction l with
  | nil => simp [insertBy]
  | cons y ys ih =>
    unfold insertBy
    by_cases h : le x y = true
    · simp [h]
    · simp only [h]
      simp [ih]
      tauto

theorem mem_sortBy {le : Item → Item → Bool} {a : Item} {l : List Item} :
    a ∈ sortBy le l ↔ a ∈ l := by
  induction l with
  | nil => simp [sortBy]
  | cons y ys ih =>
    unfold sortBy
    rw [mem_insertBy]
    simp [ih]

theorem length_insertBy {le : Item → Item → Bool} {x : Item} {l : List Item} :
    (insertBy le x l).length = l.length + 1 := by
  induction l with
  | nil => simp [insertBy]
  | cons y ys ih =>
    unfold insertBy
    by_cases h : le x y = true <;> simp [h, ih]

theorem length_sortBy {le : Item → Item → Bool} {l : List Item} :
    (sortBy le l).length = l.length := by
  induction l with
  | nil => rfl
  | cons y ys ih =>
    unfold sortBy
    rw [length_insertBy, ih]
    simp

/-- Query on the prefix-plus-time GSI: key condition `prefix = p`, a
server-side filter, results ordered by the time attribute. -/
def queryTimeGSI (t : Table) (p : String) (filt : Item → Bool) (order : String) : List Item :=
  sortBy (timeLe (order == "asc")) (t.filter (fun x => x.pfx == p && filt x))

theorem mem_queryTimeGSI {t : Table} {p : String} {filt : Item → Bool} {order : String}
    {x : Item} (h : x ∈ queryTimeGSI t p filt order) :
    x ∈ t ∧ x.pfx = p ∧ filt x = true := by
  unfold queryTimeGSI at h
  rw [mem_sortBy, List.mem_filter] at h
  refine ⟨h.1, ?_, ?_⟩
  · have := h.2
    simp only [Bool.and_eq_true, beq_iff_eq] at this
    exact this.1
  · have := h.2
    simp only [Bool.and_eq_true] at this
    exact this.2

theorem length_queryTimeGSI {t : Table} {p : String} {filt : Item → Bool} {order : String} :
    (queryTimeGSI t p filt order).length
      = (t.filter (fun x => x.pfx == p && filt x)).length := by
  unfold queryTimeGSI
  exact length_sortBy

/-
Client-side pagination.  Every list* method ends with the same block:
  totalCount = records.length
  if pagination and totalCount is truthy (nonzero):
    pageNumber = min(ceil(totalCount / pageSize), pageNumber)
    items = records.slice(pageSize*(pageNumber-1),
                          min(pageSize*pageNumber, totalCount))
  else if pagination: items stay empty
  else: items = records
-/

/-- Math.ceil of a natural division (`Math.ceil(a / b)` for naturals). -/
def ceilNat (a b : Nat) : Nat := (a + b - 1) / b

/-- JavaScript `Array.prototype.slice(s, e)` on natural indices. -/
def sliceList (l : List Item) (s e : Nat) : List Item :=
  (l.drop s).take (e - s)

/-- The shared client-side pagination block of the list* methods. -/
def paginateRecords (records : List Item) (pagination : Bool) (ps pn : Nat) : List Item :=
  if pagination then
    if records.length ≠ 0 then
      let pn2 := min (ceilNat records.length ps) pn
      let s := ps * (pn2 - 1)
      let e := min (ps * pn2) records.length
      sliceList records s e
    else []
  else records

theorem mem_paginateRecords {records : List Item} {pagination : Bool} {ps pn : Nat}
    {x : Item} (h : x ∈ paginateRecords records pagination ps pn) : x ∈ records := by
  unfold paginateRecords at h
  split at h
  · split at h
    · unfold sliceList at h
      exact List.drop_subset _ records (List.take_subset _ _ h)
    · simp at h
  · exact h

/-- Result envelope shared by IProjectList / IApplicationList /
IPipelineList / IPluginList: a total count plus a page of items. -/
structure EntityList where
  totalCount : Nat
  items : List Item
deriving DecidableEq

/-- Modelled from the spec: `isEmpty` lives in `common/utils` which is not
under src/; per the spec the scoping fields are optional, so an absent or
empty string means "no filter". -/
def isEmpty (s : String) : Bool := s == ""

/-- Byte-faithful `String.startsWith`, phrased on the character lists so
that it evaluates by reduction. -/
def strStartsWith (s pre : String) : Bool :=
  pre.data.isPrefixOf s.data


/-
Store operations (DynamoDbStore).
-/

/-- getProject: point lookup, hiding soft-deleted records. -/
def getProject (t : Table) (id : String) : Option Item :=
  match getItem t id ("METADATA#" ++ id) with
  | none => none
  | some p => if !p.deleted then some p else none

/-- getApplication: point lookup, hiding soft-deleted records. -/
def getApplication (t : Table) (projectId appId : String) : Option Item :=
  match getItem t projectId ("APP#" ++ appId) with
  | none => none
  | some a => if !a.deleted then some a else none

/-- getPipeline: point lookup at the requested version (default latest),
hiding soft-deleted records. -/
def getPipeline (t : Table) (projectId pipelineId : String)
    (version : Option String) : Option Item :=
  let sk := version.getD "latest"
  match getItem t projectId ("PIPELINE#" ++ pipelineId ++ "#" ++ sk) with
  | none => none
  | some p => if !p.deleted then some p else none

/-- The Put half of updatePipeline's transaction: the snapshot item built
from `c` (curPipeline), except that `operator` and `deleted` are taken
from `p` (the new pipeline), `versionTag` is set to the version string and
`updateAt` is fresh. -/
def snapshotItem (now : Nat) (p c : Item) : Item :=
  { id := c.id
    type := "PIPELINE#" ++ c.pipelineId ++ "#" ++ c.version
    pfx := c.pfx
    pipelineId := c.pipelineId
    projectId := c.projectId
    name := c.name
    description := c.description
    region := c.region
    dataCollectionSDK := c.dataCollectionSDK
    status := c.status
    tags := c.tags
    network := c.network
    bucket := c.bucket
    ingestionServer := c.ingestionServer
    etl := c.etl
    dataAnalytics := c.dataAnalytics
    report := c.report
    workflow := c.workflow
    executionName := c.executionName
    executionArn := c.executionArn
    version := c.version
    versionTag := c.version
    createAt := c.createAt
    updateAt := now
    operator := p.operator
    deleted := p.deleted }

/-- The Update half of updatePipeline's transaction: rewrite the latest
record's attributes from `p` (the new pipeline), except that
executionName/executionArn are taken from `c` (curPipeline), the version
is a fresh time token, versionTag stays "latest" and operator is reset. -/
def latestSet (now : Nat) (p c : Item) (old : Item) : Item :=
  { old with
    pfx := p.pfx
    name := p.name
    description := p.description
    region := p.region
    dataCollectionSDK := p.dataCollectionSDK
    status := p.status
    tags := p.tags
    network := p.network
    bucket := p.bucket
    ingestionServer := p.ingestionServer
    etl := p.etl
    dataAnalytics := p.dataAnalytics
    report := p.report
    workflow := p.workflow
    executionName := c.executionName
    executionArn := c.executionArn
    version := toString now
    versionTag := "latest"
    updateAt := now
    operator := "" }

/-- updatePipeline: a two-item TransactWriteItems.  Item 1 Puts the
snapshot guarded by attribute_not_exists(type); item 2 Updates the latest
record guarded by `version = pipeline.version` (the version the caller
supplied).  Both conditions are evaluated against the pre-transaction
table; the writes apply only when both hold (all-or-nothing). -/
def updatePipeline (now : Nat) (t : Table) (p c : Item) : Except String Table :=
  let snapTy := "PIPELINE#" ++ c.pipelineId ++ "#" ++ c.version
  let latestTy := "PIPELINE#" ++ p.pipelineId ++ "#latest"
  let cond1 := (getItem t c.id snapTy).isNone
  let cond2 := match getItem t p.id latestTy with
    | some l => l.version == p.version
    | none => false
  if cond1 && cond2 then
    Except.ok (mapUpd (putItem t (snapshotItem now p c)) p.id latestTy (latestSet now p c))
  else
    Except.error "TransactionCanceledException"

/-- Table as seen by the caller after a store call that may throw: an
error leaves the stored state untouched. -/
def resultTable (t : Table) : Except String Table → Table
  | Except.ok t2 => t2
  | Except.error _ => t

/-- Mark an item soft-deleted. -/
def setDeleted (y : Item) : Item := { y with deleted := true }

/-- deleteProject: scan all live records of the project id and flip their
delete flag one by one. -/
def deleteProject (t : Table) (id : String) : Table :=
  let records := t.filter (fun it => it.id == id && it.deleted == false)
  records.foldl (fun acc r => mapUpd acc id r.type (fun y => setDeleted y)) t

/-- Status written by deletePipeline: the scanned record's status object
with its status field set to the DELETING marker (when present). -/
def delStatus : Option String → Option String
  | some _ => some "Deleting"
  | none => none

/-- deletePipeline: scan all live version records of the pipeline and mark
each deleted with a DELETING status, one by one. -/
def deletePipeline (t : Table) (projectId pipelineId : String) : Table :=
  let records := t.filter (fun it =>
    it.id == projectId && (strStartsWith it.type ("PIPELINE#" ++ pipelineId)
      && it.deleted == false))
  records.foldl (fun acc r => mapUpd acc projectId r.type
    (fun y => { y with deleted := true, status := delStatus r.status })) t

/-- Records returned by listProjects' GSI query: prefix METADATA and
live-item filter. -/
def listRecordsProjects (t : Table) (order : String) : List Item :=
  queryTimeGSI t "METADATA" (fun it => it.deleted == false) order

/-- listProjects: the GSI query then the shared pagination block. -/
def listProjects (t : Table) (order : String) (pagination : Bool) (ps pn : Nat) : EntityList :=
  { totalCount := (listRecordsProjects t order).length
    items := paginateRecords (listRecordsProjects t order) pagination ps pn }

/-- Records returned by listApplication's GSI query: prefix APP, scoping
filter on projectId, live-item filter. -/
def listRecordsApplication (t : Table) (projectId order : String) : List Item :=
  queryTimeGSI t "APP"
    (fun it => it.projectId == projectId && it.deleted == false) order

/-- listApplication: the GSI query then the shared pagination block. -/
def listApplication (t : Table) (projectId order : String) (pagination : Bool)
    (ps pn : Nat) : EntityList :=
  { totalCount := (listRecordsApplication t projectId order).length
    items := paginateRecords (listRecordsApplication t projectId order) pagination ps pn }

/-- Records returned by listPipeline's GSI query: prefix PIPELINE,
live-item filter plus optional versionTag and project id scoping. -/
def listRecordsPipeline (t : Table) (projectId version order : String) : List Item :=
  queryTimeGSI t "PIPELINE"
    (fun it =>
      it.deleted == false
      && (if !(isEmpty version) then it.versionTag == version else true)
      && (if !(isEmpty projectId) then it.id == projectId else true)) order

/-- listPipeline: the GSI query then the shared pagination block. -/
def listPipeline (t : Table) (projectId version order : String) (pagination : Bool)
    (ps pn : Nat) : EntityList :=
  { totalCount := (listRecordsPipeline t projectId version order).length
    items := paginateRecords (listRecordsPipeline t projectId version order) pagination ps pn }

/-
Dictionary table and plugins.  Built-in plugins live as string-typed
records inside the dictionary item named BuildInPlugins; reading them
coerces the numeric and boolean fields.
-/

/-- One entry of a dictionary data blob: the built-in plugin catalog
stores every field as a string. -/
structure RawPlugin where
  id : String := ""
  name : String := ""
  description : String := ""
  pluginType : String := ""
  mainFunction : String := ""
  jarFile : String := ""
  dependencyFiles : Option (List String) := none
  builtIn : String := ""
  deleted : String := ""
  bindCount : String := ""
  createAt : String := ""
  updateAt : String := ""
deriving DecidableEq

/-- The dictionary table (`dictionaryTableName`), keyed by name only. -/
abbrev DictTable := List (String × List RawPlugin)

/-- getDictionary: point lookup by name. -/
def getDictionary (d : DictTable) (name : String) : Option (List RawPlugin) :=
  (d.find? (fun e => e.fst == name)).map (fun e => e.snd)

/-- Numeric coercion of a decimal digit string (the JS unary plus, for
the digit strings the catalog holds). -/
def strToNat (s : String) : Nat :=
  s.data.foldl (fun acc c => acc * 10 + (c.toNat - 48)) 0

/-- Coercion applied to each dictionary plugin record before use:
`+p.createAt`, `+p.updateAt`, `+p.bindCount`, `p.builtIn === 'true'`,
`p.deleted === 'true'` (numeric coercion of a non-numeric string is
outside the inputs the catalog holds). -/
def parsePlugin (rp : RawPlugin) : Item :=
  { id := rp.id
    name := rp.name
    description := rp.description
    pluginType := rp.pluginType
    mainFunction := rp.mainFunction
    jarFile := rp.jarFile
    dependencyFiles := rp.dependencyFiles
    builtIn := rp.builtIn == "true"
    deleted := rp.deleted == "true"
    bindCount := strToNat rp.bindCount
    createAt := strToNat rp.createAt
    updateAt := strToNat rp.updateAt }

/-- The table half of getPlugin: point lookup hiding soft-deleted
records. -/
def getPluginFromTable (t : Table) (pluginId : String) : Option Item :=
  match getItem t pluginId ("PLUGIN#" ++ pluginId) with
  | none => none
  | some p => if !p.deleted then some p else none

/-- getPlugin: ids starting with BUILDIN are served from the dictionary
catalog when it exists (first record with the id, with no deleted check);
otherwise the stored table record is returned, hiding soft-deleted. -/
def getPlugin (dict : DictTable) (t : Table) (pluginId : String) : Option Item :=
  if strStartsWith pluginId "BUILDIN" then
    match getDictionary dict "BuildInPlugins" with
    | some data => ((data.map parsePlugin).filter (fun p => p.id == pluginId)).head?
    | none => getPluginFromTable t pluginId
  else getPluginFromTable t pluginId

/-- The attribute rewrite of updatePlugin's UpdateExpression: always
updateAt, then each field included only when the argument carries it
(string truthiness for strings, presence for the file array). -/
def applyPluginUpdate (now : Nat) (p stored : Item) : Item :=
  let s1 := { stored with updateAt := now }
  let s2 := if p.description != "" then { s1 with description := p.description } else s1
  let s3 := if p.jarFile != "" then { s2 with jarFile := p.jarFile } else s2
  let s4 := match p.dependencyFiles with
    | some dfs => { s3 with dependencyFiles := some dfs }
    | none => s3
  if p.mainFunction != "" then { s4 with mainFunction := p.mainFunction } else s4

/-- updatePlugin: conditional update guarded by `bindCount = 0`; the
condition fails (also when the item is absent) with
ConditionalCheckFailedException. -/
def updatePlugin (now : Nat) (t : Table) (p : Item) : Except String Table :=
  match getItem t p.id ("PLUGIN#" ++ p.id) with
  | some stored =>
    if stored.bindCount == 0
    then Except.ok (mapUpd t p.id ("PLUGIN#" ++ p.id) (applyPluginUpdate now p))
    else Except.error "ConditionalCheckFailedException"
  | none => Except.error "ConditionalCheckFailedException"

/-- deletePlugin: conditional soft-delete guarded by `bindCount = 0`. -/
def deletePlugin (t : Table) (pluginId : String) : Except String Table :=
  match getItem t pluginId ("PLUGIN#" ++ pluginId) with
  | some stored =>
    if stored.bindCount == 0
    then Except.ok (mapUpd t pluginId ("PLUGIN#" ++ pluginId) setDeleted)
    else Except.error "ConditionalCheckFailedException"
  | none => Except.error "ConditionalCheckFailedException"

/-- The built-in part of listPlugin's result: the dictionary catalog,
scoped by pluginType when given, with no deleted check. -/
def builtinPlugins (dict : DictTable) (pluginType : String) : List Item :=
  match getDictionary dict "BuildInPlugins" with
  | some data =>
    let bp := data.map parsePlugin
    if !(isEmpty pluginType) then bp.filter (fun p => p.pluginType == pluginType) else bp
  | none => []

/-- Records returned by listPlugin's GSI query: prefix PLUGIN, live-item
filter and optional pluginType scoping. -/
def listRecordsPlugin (t : Table) (pluginType order : String) : List Item :=
  queryTimeGSI t "PLUGIN"
    (fun it =>
      it.deleted == false
      && (if !(isEmpty pluginType) then it.pluginType == pluginType else true)) order

/-- listPlugin: dictionary built-ins plus the GSI query; the total count
and the page are computed over the concatenation. -/
def listPlugin (dict : DictTable) (t : Table) (pluginType order : String)
    (pagination : Bool) (ps pn : Nat) : EntityList :=
  { totalCount := (builtinPlugins dict pluginType).length
      + (listRecordsPlugin t pluginType order).length
    items := paginateRecords
      (builtinPlugins dict pluginType ++ listRecordsPlugin t pluginType order)
      pagination ps pn }

/-
Pipeline service (PipelineServ).  The workflow engine is the external
collaborator: it is part of the world state as a map from execution arns
to live execution status, queried through getExecutionStatus and never
written by the service.
-/

/-- HTTP-style envelope: success wraps a payload, failure wraps a status
code and message. -/
inductive ApiResult (α : Type) where
  | success : α → ApiResult α
  | fail : Nat → String → ApiResult α
deriving DecidableEq

/-- World state of the service: the stored table plus the workflow
engine's execution statuses. -/
structure World where
  table : Table
  engine : List (String × String)
deriving DecidableEq

/-- Workflow engine query `getExecutionStatus(arn) -> status|undefined`. -/
def engineLookup (eng : List (String × String)) (arn : String) : Option String :=
  (eng.find? (fun e => e.fst == arn)).map (fun e => e.snd)

/-- Modelled from the spec: `store.updatePipelineStatus` is not under
src/ (only its callers are); per the spec the service "write[s] the
corrected status back" to the stored pipeline record during reads. -/
def updatePipelineStatus (t : Table) (p : Item) (s : String) : Table :=
  mapUpd t p.id p.type (fun y => { y with status := some s })

/-- Live status of a pipeline: the engine's answer, with FAILED standing
in when the engine returns undefined
(`getExecutionStatus(arn) ?? ExecutionStatus.FAILED`). -/
def liveStatus (eng : List (String × String)) (p : Item) : String :=
  (engineLookup eng p.executionArn).getD "FAILED"

/-- The per-pipeline status reconciliation block shared by the service's
list and details reads: when the record carries an execution arn, query
the engine and, if the live status differs from the stored one, write it
back. -/
def reconcileOne (eng : List (String × String)) (t : Table) (p : Item) : Item × Table :=
  if p.executionArn != "" then
    let cur := liveStatus eng p
    if p.status != some cur then
      let p2 := { p with status := some cur }
      (p2, updatePipelineStatus t p2 cur)
    else (p, t)
  else (p, t)

namespace PipelineServ

/-- PipelineServ.details: load, 404 when absent (or soft-deleted),
reconcile status, respond. -/
def details (w : World) (pid id : String) : ApiResult Item × World :=
  match getPipeline w.table pid id none with
  | none => (ApiResult.fail 404 "Pipeline not found", w)
  | some result =>
    let pr := reconcileOne w.engine w.table result
    (ApiResult.success pr.fst, { table := pr.snd, engine := w.engine })

/-- PipelineServ.list: paginated listing, then the reconciliation block
for each item in order. -/
def list (w : World) (pid version order : String) (ps pn : Nat) :
    ApiResult EntityList × World :=
  let result := listPipeline w.table pid version order true ps pn
  let folded := result.items.foldl
    (fun (acc : List Item × Table) p =>
      let pr := reconcileOne w.engine acc.snd p
      (acc.fst ++ [pr.fst], pr.snd)) ([], w.table)
  (ApiResult.success { totalCount := result.totalCount, items := folded.fst },
   { table := folded.snd, engine := w.engine })

/-- PipelineServ.update: set id from projectId, read the current latest
record, 404 when absent, else delegate to the store's transactional
updatePipeline; a store error propagates to the error middleware. -/
def update (now : Nat) (w : World) (body : Item) : ApiResult Unit × World :=
  let pipeline := { body with id := body.projectId }
  match getPipeline w.table pipeline.id pipeline.pipelineId none with
  | none => (ApiResult.fail 404 "Pipeline resource does not exist.", w)
  | some cur =>
    match updatePipeline now w.table pipeline cur with
    | Except.ok t2 => (ApiResult.success (), { w with table := t2 })
    | Except.error e => (ApiResult.fail 500 e, w)

end PipelineServ

/-
Characterization lemmas.
-/

theorem latestSet_keys (now : Nat) (p c : Item) :
    ∀ x, (latestSet now p c x).id = x.id ∧ (latestSet now p c x).type = x.type := by
  intro x
  simp [latestSet]

/-- Anatomy of a successful updatePipeline: the snapshot item sits at the
versioned key and the latest record was rewritten by `latestSet`. -/
theorem updatePipeline_spec (now : Nat) (t : Table) (p c old : Item) (t2 : Table)
    (hold : getItem t p.id ("PIPELINE#" ++ p.pipelineId ++ "#latest") = some old)
    (h : updatePipeline now t p c = Except.ok t2) :
    getItem t2 c.id ("PIPELINE#" ++ c.pipelineId ++ "#" ++ c.version)
        = some (snapshotItem now p c)
    ∧ getItem t2 p.id ("PIPELINE#" ++ p.pipelineId ++ "#latest")
        = some (latestSet now p c old) := by
  unfold updatePipeline at h
  dsimp only at h
  split at h
  case isFalse => exact absurd h (by simp)
  case isTrue hc =>
    rw [Bool.and_eq_true] at hc
    have hsnapNone : getItem t c.id ("PIPELINE#" ++ c.pipelineId ++ "#" ++ c.version) = none := by
      have := hc.1
      rwa [Option.isNone_iff_eq_none] at this
    have ht2 : t2 = mapUpd (putItem t (snapshotItem now p c)) p.id
        ("PIPELINE#" ++ p.pipelineId ++ "#latest") (latestSet now p c) := by
      cases h
      rfl
    have hne : ¬(c.id = p.id ∧ ("PIPELINE#" ++ c.pipelineId ++ "#" ++ c.version)
        = ("PIPELINE#" ++ p.pipelineId ++ "#latest")) := by
      rintro ⟨h1, h2⟩
      rw [h1, h2, hold] at hsnapNone
      exact Option.some_ne_none old hsnapNone
    have hsnapKeys : (snapshotItem now p c).id = c.id ∧
        (snapshotItem now p c).type = ("PIPELINE#" ++ c.pipelineId ++ "#" ++ c.version) :=
      ⟨rfl, rfl⟩
    constructor
    · rw [ht2]
      rw [getItem_mapUpd_other _ _ _ _ _ _ (latestSet_keys now p c) hne]
      have := getItem_putItem_self t (snapshotItem now p c)
      rwa [hsnapKeys.1, hsnapKeys.2] at this
    · rw [ht2]
      rw [getItem_mapUpd_self _ _ _ _ (latestSet_keys now p c)]
      rw [getItem_putItem_other t (snapshotItem now p c) p.id
        ("PIPELINE#" ++ p.pipelineId ++ "#latest")
        (by
          rintro ⟨h1, h2⟩
          rw [hsnapKeys.1] at h1
          rw [hsnapKeys.2] at h2
          exact hne ⟨h1.symm, h2.symm⟩)]
      rw [hold]
      rfl

/-- Version-mismatch path of updatePipeline: the transaction's Update
condition compares the stored latest version with the caller-supplied
`pipeline.version`; a mismatch cancels the transaction. -/
theorem updatePipeline_version_mismatch (now : Nat) (t : Table) (p c lat : Item)
    (hlat : getItem t p.id ("PIPELINE#" ++ p.pipelineId ++ "#latest") = some lat)
    (hv : lat.version ≠ p.version) :
    updatePipeline now t p c = Except.error "TransactionCanceledException" := by
  unfold updatePipeline
  dsimp only
  rw [hlat]
  have hb : (lat.version == p.version) = false := by
    rw [beq_eq_false_iff_ne]
    exact hv
  simp [hb]

/-- C2: updatePipeline fails with a cancelled transaction whenever the
stored latest version differs from the caller-supplied expected version,
and on any failure neither the snapshot insert nor the latest update takes
effect (the stored table is unchanged). -/
theorem claim_C2 (now : Nat) (t : Table) (p c lat : Item) :
    (getItem t p.id ("PIPELINE#" ++ p.pipelineId ++ "#latest") = some lat →
      lat.version ≠ p.version →
      updatePipeline now t p c = Except.error "TransactionCanceledException")
    ∧ (∀ e, updatePipeline now t p c = Except.error e →
        resultTable t (updatePipeline now t p c) = t
        ∧ getItem (resultTable t (updatePipeline now t p c)) c.id
            ("PIPELINE#" ++ c.pipelineId ++ "#" ++ c.version)
          = getItem t c.id ("PIPELINE#" ++ c.pipelineId ++ "#" ++ c.version)
        ∧ getItem (resultTable t (updatePipeline now t p c)) p.id
            ("PIPELINE#" ++ p.pipelineId ++ "#latest")
          = getItem t p.id ("PIPELINE#" ++ p.pipelineId ++ "#latest")) := by
  constructor
  · intro hlat hv
    exact updatePipeline_version_mismatch now t p c lat hlat hv
  · intro e he
    have hr : resultTable t (updatePipeline now t p c) = t := by
      rw [he]
      rfl
    exact ⟨hr, by rw [hr], by rw [hr]⟩

def c2lat : Item :=
  { id := "proj", type := "PIPELINE#p2#latest", pfx := "PIPELINE",
    pipelineId := "p2", projectId := "proj", version := "9",
    versionTag := "latest", createAt := 1 }

def c2p : Item :=
  { id := "proj", type := "PIPELINE#p2#latest", pfx := "PIPELINE",
    pipelineId := "p2", projectId := "proj", version := "7",
    versionTag := "latest", createAt := 1 }

def c2t : Table := [c2lat]

theorem claim_C2_witness :
    updatePipeline 3 c2t c2p c2p = Except.error "TransactionCanceledException" :=
  (claim_C2 3 c2t c2p c2p c2lat).1 (by rfl) (by decide)

def c1cur : Item :=
  { id := "proj", type := "PIPELINE#p1#latest", pfx := "PIPELINE",
    pipelineId := "p1", projectId := "proj", name := "n1",
    version := "7", versionTag := "latest", operator := "bob",
    executionArn := "arn-old", executionName := "en-old",
    createAt := 5, status := some "ACTIVE" }

def c1new : Item :=
  { c1cur with name := "n2", operator := "alice", executionArn := "arn-new" }

def c1t : Table := [c1cur]

def c1t2 : Table := resultTable c1t (updatePipeline 100 c1t c1new c1cur)

/-- C1 as stated is false: after a successful update the snapshot's
operator comes from the NEW pipeline argument (not current's pre-update
state), and the latest record's executionArn is retained from CURRENT
(not taken from new). -/
theorem claim_C1_counterexample :
    updatePipeline 100 c1t c1new c1cur = Except.ok c1t2
    ∧ (getItem c1t2 "proj" "PIPELINE#p1#7").map Item.operator = some "alice"
    ∧ c1cur.operator = "bob"
    ∧ (getItem c1t2 "proj" "PIPELINE#p1#latest").map Item.executionArn = some "arn-old"
    ∧ c1new.executionArn = "arn-new" := by
  refine ⟨rfl, rfl, rfl, rfl, rfl⟩

/-- C1 (amended): after updatePipeline(new, current) succeeds, a snapshot
record sits at sort key suffix current.version and equals current's
pre-update state on the configuration fields, except that operator and
deleted are taken from new, updateAt is fresh and versionTag is the
version; the latest record carries new's fields with the version advanced
to a fresh token and versionTag "latest", except that
executionName/executionArn are retained from current and operator is
reset to the empty string. -/
theorem claim_C1 (now : Nat) (t : Table) (p c old : Item) (t2 : Table)
    (hold : getItem t p.id ("PIPELINE#" ++ p.pipelineId ++ "#latest") = some old)
    (h : updatePipeline now t p c = Except.ok t2) :
    getItem t2 c.id ("PIPELINE#" ++ c.pipelineId ++ "#" ++ c.version)
        = some (snapshotItem now p c)
    ∧ getItem t2 p.id ("PIPELINE#" ++ p.pipelineId ++ "#latest")
        = some (latestSet now p c old)
    ∧ (snapshotItem now p c).name = c.name
    ∧ (snapshotItem now p c).status = c.status
    ∧ (snapshotItem now p c).version = c.version
    ∧ (snapshotItem now p c).versionTag = c.version
    ∧ (snapshotItem now p c).operator = p.operator
    ∧ (snapshotItem now p c).deleted = p.deleted
    ∧ (latestSet now p c old).name = p.name
    ∧ (latestSet now p c old).version = toString now
    ∧ (latestSet now p c old).versionTag = "latest"
    ∧ (latestSet now p c old).executionName = c.executionName
    ∧ (latestSet now p c old).executionArn = c.executionArn
    ∧ (latestSet now p c old).operator = "" := by
  have hs := updatePipeline_spec now t p c old t2 hold h
  exact ⟨hs.1, hs.2, rfl, rfl, rfl, rfl, rfl, rfl, rfl, rfl, rfl, rfl, rfl, rfl⟩

theorem claim_C1_witness :
    getItem c1t2 c1cur.id ("PIPELINE#" ++ c1cur.pipelineId ++ "#" ++ c1cur.version)
        = some (snapshotItem 100 c1new c1cur)
    ∧ getItem c1t2 c1new.id ("PIPELINE#" ++ c1new.pipelineId ++ "#latest")
        = some (latestSet 100 c1new c1cur c1cur)
    ∧ (snapshotItem 100 c1new c1cur).name = c1cur.name
    ∧ (snapshotItem 100 c1new c1cur).status = c1cur.status
    ∧ (snapshotItem 100 c1new c1cur).version = c1cur.version
    ∧ (snapshotItem 100 c1new c1cur).versionTag = c1cur.version
    ∧ (snapshotItem 100 c1new c1cur).operator = c1new.operator
    ∧ (snapshotItem 100 c1new c1cur).deleted = c1new.deleted
    ∧ (latestSet 100 c1new c1cur c1cur).name = c1new.name
    ∧ (latestSet 100 c1new c1cur c1cur).version = toString 100
    ∧ (latestSet 100 c1new c1cur c1cur).versionTag = "latest"
    ∧ (latestSet 100 c1new c1cur c1cur).executionName = c1cur.executionName
    ∧ (latestSet 100 c1new c1cur c1cur).executionArn = c1cur.executionArn
    ∧ (latestSet 100 c1new c1cur c1cur).operator = "" :=
  claim_C1 100 c1t c1new c1cur c1cur c1t2 (by rfl) (by rfl)

/-- C10: the latest record written by a successful updatePipeline takes
its executionName and executionArn from the current (old) pipeline
argument and resets the operator field to the empty string. -/
theorem claim_C10 (now : Nat) (t : Table) (p c old : Item) (t2 : Table)
    (hold : getItem t p.id ("PIPELINE#" ++ p.pipelineId ++ "#latest") = some old)
    (h : updatePipeline now t p c = Except.ok t2) :
    (getItem t2 p.id ("PIPELINE#" ++ p.pipelineId ++ "#latest")).map Item.executionName
        = some c.executionName
    ∧ (getItem t2 p.id ("PIPELINE#" ++ p.pipelineId ++ "#latest")).map Item.executionArn
        = some c.executionArn
    ∧ (getItem t2 p.id ("PIPELINE#" ++ p.pipelineId ++ "#latest")).map Item.operator
        = some "" := by
  have hs := (updatePipeline_spec now t p c old t2 hold h).2
  rw [hs]
  exact ⟨rfl, rfl, rfl⟩

def c10cur : Item :=
  { id := "pr", type := "PIPELINE#px#latest", pfx := "PIPELINE",
    pipelineId := "px", projectId := "pr", name := "m1",
    version := "11", versionTag := "latest", operator := "carol",
    executionArn := "arn-a", executionName := "en-a", createAt := 2 }

def c10new : Item :=
  { c10cur with
    description := "d2"
    operator := "dave"
    executionArn := "arn-b"
    executionName := "en-b" }

def c10t : Table := [c10cur]

def c10t2 : Table := resultTable c10t (updatePipeline 77 c10t c10new c10cur)

theorem claim_C10_witness :
    (getItem c10t2 c10new.id ("PIPELINE#" ++ c10new.pipelineId ++ "#latest")).map
        Item.executionName = some c10cur.executionName
    ∧ (getItem c10t2 c10new.id ("PIPELINE#" ++ c10new.pipelineId ++ "#latest")).map
        Item.executionArn = some c10cur.executionArn
    ∧ (getItem c10t2 c10new.id ("PIPELINE#" ++ c10new.pipelineId ++ "#latest")).map
        Item.operator = some "" :=
  claim_C10 77 c10t c10new c10cur c10cur c10t2 (by rfl) (by rfl)

theorem applyPluginUpdate_keys (now : Nat) (p : Item) :
    ∀ x, (applyPluginUpdate now p x).id = x.id ∧ (applyPluginUpdate now p x).type = x.type := by
  intro x
  unfold applyPluginUpdate
  dsimp only
  split <;> split <;> split <;> split <;> simp

theorem setDeleted_keys :
    ∀ x, (setDeleted x).id = x.id ∧ (setDeleted x).type = x.type := by
  intro x
  simp [setDeleted]

/-- C5: plugin mutation and deletion are guarded by the stored bind
count: nonzero fails the condition on both operations; zero lets both
succeed and persist the rewritten fields / the deleted flag. -/
theorem claim_C5 (now : Nat) (t : Table) (p stored : Item)
    (hst : getItem t p.id ("PLUGIN#" ++ p.id) = some stored) :
    (stored.bindCount ≠ 0 →
      updatePlugin now t p = Except.error "ConditionalCheckFailedException"
      ∧ deletePlugin t p.id = Except.error "ConditionalCheckFailedException")
    ∧ (stored.bindCount = 0 →
      updatePlugin now t p
        = Except.ok (mapUpd t p.id ("PLUGIN#" ++ p.id) (applyPluginUpdate now p))
      ∧ deletePlugin t p.id
        = Except.ok (mapUpd t p.id ("PLUGIN#" ++ p.id) setDeleted)
      ∧ getItem (resultTable t (updatePlugin now t p)) p.id ("PLUGIN#" ++ p.id)
        = some (applyPluginUpdate now p stored)
      ∧ getItem (resultTable t (deletePlugin t p.id)) p.id ("PLUGIN#" ++ p.id)
        = some (setDeleted stored)) := by
  constructor
  · intro hbc
    have hb : (stored.bindCount == 0) = false := by
      rw [beq_eq_false_iff_ne]
      exact hbc
    constructor
    · unfold updatePlugin
      rw [hst]
      simp [hb]
    · unfold deletePlugin
      rw [hst]
      simp [hb]
  · intro hbc
    have hb : (stored.bindCount == 0) = true := by
      rw [beq_iff_eq]
      exact hbc
    have hu : updatePlugin now t p
        = Except.ok (mapUpd t p.id ("PLUGIN#" ++ p.id) (applyPluginUpdate now p)) := by
      unfold updatePlugin
      rw [hst]
      simp [hb]
    have hd : deletePlugin t p.id
        = Except.ok (mapUpd t p.id ("PLUGIN#" ++ p.id) setDeleted) := by
      unfold deletePlugin
      rw [hst]
      simp [hb]
    refine ⟨hu, hd, ?_, ?_⟩
    · rw [hu]
      unfold resultTable
      rw [getItem_mapUpd_self _ _ _ _ (applyPluginUpdate_keys now p), hst]
      rfl
    · rw [hd]
      unfold resultTable
      rw [getItem_mapUpd_self _ _ _ _ setDeleted_keys, hst]
      rfl

def c5bound : Item :=
  { id := "plg1", type := "PLUGIN#plg1", pfx := "PLUGIN", name := "enrich",
    pluginType := "Transform", bindCount := 1, createAt := 3 }

def c5t : Table := [c5bound]

theorem claim_C5_witness :
    updatePlugin 9 c5t c5bound = Except.error "ConditionalCheckFailedException"
    ∧ deletePlugin c5t c5bound.id = Except.error "ConditionalCheckFailedException" :=
  (claim_C5 9 c5t c5bound c5bound (by rfl)).1 (by decide)

/-- Soft-deleted latest pipeline records are invisible to getPipeline. -/
theorem getPipeline_hides_deleted (t : Table) (pid plid : String) (v : Option String)
    (l : Item)
    (h : getItem t pid ("PIPELINE#" ++ plid ++ "#" ++ (v.getD "latest")) = some l)
    (hd : l.deleted = true) : getPipeline t pid plid v = none := by
  unfold getPipeline
  dsimp only
  rw [h]
  simp [hd]

/-- C7: the service's update returns 404 and leaves the world untouched
when no live latest record exists (also when it exists soft-deleted), and
otherwise delegates to the store's transactional updatePipeline, passing
the freshly read record as the current version. -/
theorem claim_C7 (now : Nat) (w : World) (body : Item) :
    (getPipeline w.table body.projectId body.pipelineId none = none →
      PipelineServ.update now w body
        = (ApiResult.fail 404 "Pipeline resource does not exist.", w))
    ∧ (∀ lrec, getItem w.table body.projectId
          ("PIPELINE#" ++ body.pipelineId ++ "#" ++ "latest") = some lrec →
        lrec.deleted = true →
        PipelineServ.update now w body
          = (ApiResult.fail 404 "Pipeline resource does not exist.", w))
    ∧ (∀ cur, getPipeline w.table body.projectId body.pipelineId none = some cur →
        PipelineServ.update now w body
          = (match updatePipeline now w.table { body with id := body.projectId } cur with
             | Except.ok t2 => (ApiResult.success (), { table := t2, engine := w.engine })
             | Except.error e => (ApiResult.fail 500 e, w))) := by
  refine ⟨?_, ?_, ?_⟩
  · intro h
    unfold PipelineServ.update
    dsimp only
    rw [h]
  · intro lrec hl hd
    have h : getPipeline w.table body.projectId body.pipelineId none = none :=
      getPipeline_hides_deleted w.table body.projectId body.pipelineId none lrec hl hd
    unfold PipelineServ.update
    dsimp only
    rw [h]
  · intro cur h
    unfold PipelineServ.update
    dsimp only
    rw [h]

def c7w : World := { table := [], engine := [] }

def c7body : Item :=
  { id := "", projectId := "projZ", pipelineId := "pz", pfx := "PIPELINE" }

theorem claim_C7_witness :
    PipelineServ.update 5 c7w c7body
      = (ApiResult.fail 404 "Pipeline resource does not exist.", c7w) :=
  (claim_C7 5 c7w c7body).1 (by rfl)

/-
Idempotence of the soft-delete scan loops.  Both deleteProject and
deletePipeline are instances of one shape: scan the live records matching
a predicate, then update the item at each scanned key.
-/

/-- Effect of the whole loop on one item: each pass rewrites it when its
key matches the pass's scanned record. -/
def itemStep (pid : String) (f : Item → Item → Item) (y r : Item) : Item :=
  if keyMatch y pid r.type then f r y else y

/-- The common shape of the soft-delete loops: scan live records matching
the id plus a sort-key predicate, then update each scanned key. -/
def softDeleteRun (pid : String) (q : String → Bool) (f : Item → Item → Item)
    (t : Table) : Table :=
  (t.filter (fun it => it.id == pid && (q it.type && it.deleted == false))).foldl
    (fun acc r => mapUpd acc pid r.type (f r)) t

theorem foldl_mapUpd_mem {pid : String} {f : Item → Item → Item}
    {rs : List Item} {t : Table} {x : Item}
    (h : x ∈ rs.foldl (fun acc r => mapUpd acc pid r.type (f r)) t) :
    ∃ y, y ∈ t ∧ x = rs.foldl (itemStep pid f) y := by
  induction rs generalizing t with
  | nil => exact ⟨x, h, rfl⟩
  | cons r rs ih =>
    simp only [List.foldl_cons] at h ⊢
    obtain ⟨y2, hy2, hx⟩ := ih h
    unfold mapUpd at hy2
    obtain ⟨y, hy, hmap⟩ := List.mem_map.mp hy2
    refine ⟨y, hy, ?_⟩
    rw [hx, ← hmap]
    rfl

theorem itemFold_keys (pid : String) (f : Item → Item → Item)
    (hfk : ∀ r y, (f r y).id = y.id ∧ (f r y).type = y.type)
    (rs : List Item) (y : Item) :
    (rs.foldl (itemStep pid f) y).id = y.id ∧
    (rs.foldl (itemStep pid f) y).type = y.type := by
  induction rs generalizing y with
  | nil => exact ⟨rfl, rfl⟩
  | cons r rs ih =>
    simp only [List.foldl_cons]
    have h1 : (itemStep pid f y r).id = y.id ∧ (itemStep pid f y r).type = y.type := by
      unfold itemStep
      split
      · exact hfk r y
      · exact ⟨rfl, rfl⟩
    obtain ⟨ha, hb⟩ := ih (itemStep pid f y r)
    exact ⟨ha.trans h1.1, hb.trans h1.2⟩

theorem itemFold_del_true (pid : String) (f : Item → Item → Item)
    (hfd : ∀ r y, (f r y).deleted = true)
    (rs : List Item) (y : Item) (hy : y.deleted = true) :
    (rs.foldl (itemStep pid f) y).deleted = true := by
  induction rs generalizing y with
  | nil => exact hy
  | cons r rs ih =>
    simp only [List.foldl_cons]
    apply ih
    unfold itemStep
    split
    · exact hfd r y
    · exact hy

theorem itemFold_del_false (pid : String) (f : Item → Item → Item)
    (hfd : ∀ r y, (f r y).deleted = true)
    (rs : List Item) (y : Item)
    (h : (rs.foldl (itemStep pid f) y).deleted = false) :
    y.deleted = false ∧ ∀ r ∈ rs, keyMatch y pid r.type = false := by
  induction rs generalizing y with
  | nil => exact ⟨h, by simp⟩
  | cons r rs ih =>
    simp only [List.foldl_cons] at h
    by_cases hm : keyMatch y pid r.type = true
    · exfalso
      have hd1 : (itemStep pid f y r).deleted = true := by
        unfold itemStep
        rw [if_pos hm]
        exact hfd r y
      have := itemFold_del_true pid f hfd rs _ hd1
      rw [h] at this
      exact Bool.false_ne_true this
    · have hstep : itemStep pid f y r = y := by
        unfold itemStep
        exact if_neg hm
      rw [hstep] at h
      obtain ⟨h1, h2⟩ := ih y h
      refine ⟨h1, ?_⟩
      intro r2 hr2
      rcases List.mem_cons.mp hr2 with h3 | h3
      · rw [h3]
        exact Bool.not_eq_true _ ▸ hm
      · exact h2 r2 h3

/-- After one soft-delete pass, no record matches the live filter any
more, so a second pass scans nothing and changes nothing. -/
theorem softDeleteRun_idem (pid : String) (q : String → Bool) (f : Item → Item → Item)
    (hfk : ∀ r y, (f r y).id = y.id ∧ (f r y).type = y.type)
    (hfd : ∀ r y, (f r y).deleted = true) (t : Table) :
    softDeleteRun pid q f (softDeleteRun pid q f t) = softDeleteRun pid q f t := by
  have hliv : ∀ x ∈ softDeleteRun pid q f t,
      (x.id == pid && (q x.type && x.deleted == false)) = false := by
    intro x hx
    unfold softDeleteRun at hx
    obtain ⟨y, hy, hxy⟩ := foldl_mapUpd_mem hx
    by_contra hp
    rw [Bool.not_eq_false, Bool.and_eq_true, Bool.and_eq_true] at hp
    have hid := hp.1
    have hq := hp.2.1
    have hdel := hp.2.2
    have hxdel : x.deleted = false := by
      rwa [beq_iff_eq] at hdel
    have hkeys := itemFold_keys pid f hfk
      (t.filter (fun it => it.id == pid && (q it.type && it.deleted == false))) y
    have hfls := itemFold_del_false pid f hfd
      (t.filter (fun it => it.id == pid && (q it.type && it.deleted == false))) y
      (by rw [← hxy]; exact hxdel)
    have hyid : y.id = x.id := by rw [hxy]; exact (hkeys).1.symm
    have hyty : y.type = x.type := by rw [hxy]; exact (hkeys).2.symm
    have hymem : y ∈ t.filter
        (fun it => it.id == pid && (q it.type && it.deleted == false)) := by
      rw [List.mem_filter]
      refine ⟨hy, ?_⟩
      rw [Bool.and_eq_true, Bool.and_eq_true]
      refine ⟨by rw [hyid]; exact hid, by rw [hyty]; exact hq, by simp [hfls.1]⟩
    have := hfls.2 y hymem
    rw [keyMatch] at this
    rw [hyid] at this
    simp [hid] at this
  have h2 : (softDeleteRun pid q f t).filter
      (fun it => it.id == pid && (q it.type && it.deleted == false)) = [] := by
    rw [List.filter_eq_nil_iff]
    intro a ha hcontra
    rw [hliv a ha] at hcontra
    exact Bool.false_ne_true hcontra
  have hrun : ∀ tb : Table,
      tb.filter (fun it => it.id == pid && (q it.type && it.deleted == false)) = [] →
      softDeleteRun pid q f tb = tb := by
    intro tb hnil
    unfold softDeleteRun
    rw [hnil]
    rfl
  exact hrun _ h2

theorem deleteProject_eq_run (t : Table) (id : String) :
    deleteProject t id = softDeleteRun id (fun _ => true) (fun _ y => setDeleted y) t := rfl

theorem deletePipeline_eq_run (t : Table) (projectId pipelineId : String) :
    deletePipeline t projectId pipelineId
      = softDeleteRun projectId (fun ty => strStartsWith ty ("PIPELINE#" ++ pipelineId))
          (fun r y => { y with deleted := true, status := delStatus r.status }) t := rfl

/-- C8: deleteProject and deletePipeline are idempotent: a second run
after a completed first run scans no live record (the live-item filter
excludes every record already marked deleted) and leaves the stored
state unchanged. -/
theorem claim_C8 (t : Table) (id projectId pipelineId : String) :
    deleteProject (deleteProject t id) id = deleteProject t id
    ∧ deletePipeline (deletePipeline t projectId pipelineId) projectId pipelineId
        = deletePipeline t projectId pipelineId := by
  constructor
  · simp only [deleteProject_eq_run]
    exact softDeleteRun_idem id (fun _ => true) (fun _ y => setDeleted y)
      (fun _ y => setDeleted_keys y) (fun _ y => rfl) t
  · simp only [deletePipeline_eq_run]
    exact softDeleteRun_idem projectId
      (fun ty => strStartsWith ty ("PIPELINE#" ++ pipelineId))
      (fun r y => { y with deleted := true, status := delStatus r.status })
      (fun _ y => ⟨rfl, rfl⟩) (fun _ y => rfl) t

/-
Soft-delete visibility.
-/

theorem getProject_hides_deleted (t : Table) (id : String) (p : Item)
    (h : getItem t id ("METADATA#" ++ id) = some p) (hd : p.deleted = true) :
    getProject t id = none := by
  unfold getProject
  rw [h]
  simp [hd]

theorem getApplication_hides_deleted (t : Table) (pid aid : String) (p : Item)
    (h : getItem t pid ("APP#" ++ aid) = some p) (hd : p.deleted = true) :
    getApplication t pid aid = none := by
  unfold getApplication
  rw [h]
  simp [hd]

theorem getPluginFromTable_hides_deleted (t : Table) (plid : String) (p : Item)
    (h : getItem t plid ("PLUGIN#" ++ plid) = some p) (hd : p.deleted = true) :
    getPluginFromTable t plid = none := by
  unfold getPluginFromTable
  rw [h]
  simp [hd]

theorem listProjects_live (t : Table) (ord : String) (pg : Bool) (ps pn : Nat) :
    ∀ x ∈ (listProjects t ord pg ps pn).items, x.deleted = false := by
  intro x hx
  simp only [listProjects, listRecordsProjects] at hx
  have h2 := mem_queryTimeGSI (mem_paginateRecords hx)
  simpa using h2.2.2

theorem listApplication_live (t : Table) (pid ord : String) (pg : Bool) (ps pn : Nat) :
    ∀ x ∈ (listApplication t pid ord pg ps pn).items, x.deleted = false := by
  intro x hx
  simp only [listApplication, listRecordsApplication] at hx
  have h2 := mem_queryTimeGSI (mem_paginateRecords hx)
  have h3 := h2.2.2
  rw [Bool.and_eq_true] at h3
  simpa using h3.2

theorem listPipeline_live (t : Table) (pid ver ord : String) (pg : Bool) (ps pn : Nat) :
    ∀ x ∈ (listPipeline t pid ver ord pg ps pn).items, x.deleted = false := by
  intro x hx
  simp only [listPipeline, listRecordsPipeline] at hx
  have h2 := mem_queryTimeGSI (mem_paginateRecords hx)
  have h3 := h2.2.2
  rw [Bool.and_eq_true, Bool.and_eq_true] at h3
  simpa using h3.1.1

theorem listPlugin_live (dict : DictTable) (t : Table) (pt ord : String)
    (pg : Bool) (ps pn : Nat) :
    ∀ x ∈ (listPlugin dict t pt ord pg ps pn).items,
      x ∈ builtinPlugins dict pt ∨ x.deleted = false := by
  intro x hx
  simp only [listPlugin, listRecordsPlugin] at hx
  have h1 := mem_paginateRecords hx
  rcases List.mem_append.mp h1 with h2 | h2
  · exact Or.inl h2
  · have h3 := mem_queryTimeGSI h2
    have h4 := h3.2.2
    rw [Bool.and_eq_true] at h4
    exact Or.inr (by simpa using h4.1)

/-- C3 (amended): every get* hides and every list* omits soft-deleted
records stored as table items; built-in plugins served from the
BuildInPlugins dictionary entry are the exception — getPlugin and
listPlugin return them with no deleted check. -/
theorem claim_C3 (dict : DictTable) (t : Table)
    (id pid aid plid plid2 ver2 ord pt : String) (v : Option String)
    (pg : Bool) (ps pn : Nat) (p : Item) :
    (getItem t id ("METADATA#" ++ id) = some p → p.deleted = true →
      getProject t id = none)
    ∧ (getItem t pid ("APP#" ++ aid) = some p → p.deleted = true →
      getApplication t pid aid = none)
    ∧ (getItem t pid ("PIPELINE#" ++ plid ++ "#" ++ (v.getD "latest")) = some p →
      p.deleted = true → getPipeline t pid plid v = none)
    ∧ (getItem t plid2 ("PLUGIN#" ++ plid2) = some p → p.deleted = true →
      (¬ strStartsWith plid2 "BUILDIN" = true
        ∨ getDictionary dict "BuildInPlugins" = none) →
      getPlugin dict t plid2 = none)
    ∧ (∀ x ∈ (listProjects t ord pg ps pn).items, x.deleted = false)
    ∧ (∀ x ∈ (listApplication t pid ord pg ps pn).items, x.deleted = false)
    ∧ (∀ x ∈ (listPipeline t pid ver2 ord pg ps pn).items, x.deleted = false)
    ∧ (∀ x ∈ (listPlugin dict t pt ord pg ps pn).items,
        x ∈ builtinPlugins dict pt ∨ x.deleted = false) := by
  refine ⟨?_, ?_, ?_, ?_, listProjects_live t ord pg ps pn,
    listApplication_live t pid ord pg ps pn,
    listPipeline_live t pid ver2 ord pg ps pn,
    listPlugin_live dict t pt ord pg ps pn⟩
  · intro h hd
    exact getProject_hides_deleted t id p h hd
  · intro h hd
    exact getApplication_hides_deleted t pid aid p h hd
  · intro h hd
    exact getPipeline_hides_deleted t pid plid v p h hd
  · intro h hd hbr
    unfold getPlugin
    rcases hbr with hb | hb
    · rw [Bool.not_eq_true] at hb
      rw [hb]
      simp only [Bool.false_eq_true, if_false]
      exact getPluginFromTable_hides_deleted t plid2 p h hd
    · by_cases hsw : strStartsWith plid2 "BUILDIN" = true
      · rw [hsw]
        simp only [if_true, hb]
        exact getPluginFromTable_hides_deleted t plid2 p h hd
      · rw [Bool.not_eq_true] at hsw
        rw [hsw]
        simp only [Bool.false_eq_true, if_false]
        exact getPluginFromTable_hides_deleted t plid2 p h hd

def c3raw : RawPlugin :=
  { id := "BUILDIN-1", name := "IPEnrichment", pluginType := "Enrich",
    builtIn := "true", deleted := "true", bindCount := "0",
    createAt := "0", updateAt := "0" }

def c3dict : DictTable := [("BuildInPlugins", [c3raw])]

/-- C3 as stated is false for built-in plugins: a dictionary catalog
record marked deleted is still returned by getPlugin and listed by
listPlugin. -/
theorem claim_C3_counterexample :
    (parsePlugin c3raw).deleted = true
    ∧ getPlugin c3dict [] "BUILDIN-1" = some (parsePlugin c3raw)
    ∧ (listPlugin c3dict [] "" "asc" false 10 1).items = [parsePlugin c3raw] := by
  refine ⟨rfl, by decide, by decide⟩

def c3delProj : Item :=
  { id := "pdel", type := "METADATA#pdel", pfx := "METADATA", name := "gone",
    deleted := true }

def c3t : Table := [c3delProj]

theorem claim_C3_witness : getProject c3t "pdel" = none :=
  (claim_C3 c3dict c3t "pdel" "" "" "" "" "" "" "" none false 0 0 c3delProj).1
    (by rfl) (by rfl)

/-
Pagination arithmetic.
-/

theorem ceilNat_facts (len ps : Nat) (hps : 1 ≤ ps) (hlen : 1 ≤ len) :
    1 ≤ ceilNat len ps ∧ ps * (ceilNat len ps - 1) < len ∧ len ≤ ps * ceilNat len ps := by
  have hdm := Nat.div_add_mod (len + ps - 1) ps
  have hmlt : (len + ps - 1) % ps < ps := Nat.mod_lt _ hps
  unfold ceilNat
  rcases Nat.eq_zero_or_pos ((len + ps - 1) / ps) with h0 | hpos
  · exfalso
    rw [h0, Nat.mul_zero, Nat.zero_add] at hdm
    omega
  · obtain ⟨k, hk⟩ : ∃ k, (len + ps - 1) / ps = k + 1 :=
      ⟨_, (Nat.succ_pred_eq_of_pos hpos).symm⟩
    rw [hk] at hdm ⊢
    rw [Nat.mul_add, Nat.mul_one] at hdm
    refine ⟨by omega, ?_, ?_⟩
    · have hg1 : ps * (k + 1 - 1) = ps * k := by norm_num
      rw [hg1]
      omega
    · rw [Nat.mul_add, Nat.mul_one]
      omega

theorem sliceList_ne_nil {l : List Item} {s e : Nat} (hs : s < e) (hsl : s < l.length) :
    sliceList l s e ≠ [] := by
  unfold sliceList
  intro hcon
  have hl := congrArg List.length hcon
  rw [List.length_take, List.length_drop] at hl
  simp only [List.length_nil] at hl
  omega

theorem paginateRecords_pos (records : List Item) (ps pn : Nat)
    (hne : records.length ≠ 0) :
    paginateRecords records true ps pn
      = sliceList records (ps * (min (ceilNat records.length ps) pn - 1))
          (min (ps * min (ceilNat records.length ps) pn) records.length) := by
  unfold paginateRecords
  rw [if_pos rfl, if_pos hne]

theorem paginateRecords_all (records : List Item) (ps pn : Nat) :
    paginateRecords records false ps pn = records := by
  unfold paginateRecords
  split
  · case _ h => exact absurd h (by simp)
  · rfl

/-- Pagination block facts: with at least one record, a positive page
size and page number, the returned page is never empty, and any page
number at or past the last page yields the last page. -/
theorem entityList_pagination (records : List Item) (ps pn : Nat)
    (hps : 1 ≤ ps) (hpn : 1 ≤ pn) (hne : records.length ≠ 0) :
    paginateRecords records true ps pn ≠ []
    ∧ (ceilNat records.length ps ≤ pn →
        paginateRecords records true ps pn
          = paginateRecords records true ps (ceilNat records.length ps)) := by
  have hlen : 1 ≤ records.length := Nat.one_le_iff_ne_zero.mpr hne
  obtain ⟨hc1, hc2, hc3⟩ := ceilNat_facts records.length ps hps hlen
  constructor
  · rw [paginateRecords_pos records ps pn hne]
    have hpn2 : 1 ≤ min (ceilNat records.length ps) pn := le_min hc1 hpn
    have hle : min (ceilNat records.length ps) pn ≤ ceilNat records.length ps :=
      min_le_left _ _
    have hslt : ps * (min (ceilNat records.length ps) pn - 1) < records.length :=
      lt_of_le_of_lt (Nat.mul_le_mul_left ps (by omega)) hc2
    have hse : ps * (min (ceilNat records.length ps) pn - 1)
        < min (ps * min (ceilNat records.length ps) pn) records.length := by
      rw [lt_min_iff]
      refine ⟨?_, hslt⟩
      have hlt : min (ceilNat records.length ps) pn - 1 < min (ceilNat records.length ps) pn := by
        omega
      exact mul_lt_mul_of_pos_left hlt (by omega)
    exact sliceList_ne_nil hse hslt
  · intro hclamp
    rw [paginateRecords_pos records ps pn hne,
      paginateRecords_pos records ps (ceilNat records.length ps) hne]
    rw [min_eq_left hclamp, min_self]

/-- C4: for every listing call with pagination on, pageSize ≥ 1,
pageNumber ≥ 1 and a nonempty filtered result set: totalCount is the full
filtered count (the length of the non-paginated result), the returned
page is never empty, and a page number past the last page returns the
last page. -/
theorem claim_C4 (dict : DictTable) (t : Table) (pid ver ord pt : String)
    (ps pn : Nat) (hps : 1 ≤ ps) (hpn : 1 ≤ pn) :
    ((listPipeline t pid ver ord true ps pn).totalCount ≠ 0 →
      (listPipeline t pid ver ord true ps pn).totalCount
          = (listPipeline t pid ver ord false ps pn).items.length
      ∧ (listPipeline t pid ver ord true ps pn).items ≠ []
      ∧ (ceilNat (listPipeline t pid ver ord true ps pn).totalCount ps ≤ pn →
          listPipeline t pid ver ord true ps pn
            = listPipeline t pid ver ord true ps
                (ceilNat (listPipeline t pid ver ord true ps pn).totalCount ps)))
    ∧ ((listProjects t ord true ps pn).totalCount ≠ 0 →
      (listProjects t ord true ps pn).totalCount
          = (listProjects t ord false ps pn).items.length
      ∧ (listProjects t ord true ps pn).items ≠ []
      ∧ (ceilNat (listProjects t ord true ps pn).totalCount ps ≤ pn →
          listProjects t ord true ps pn
            = listProjects t ord true ps
                (ceilNat (listProjects t ord true ps pn).totalCount ps)))
    ∧ ((listApplication t pid ord true ps pn).totalCount ≠ 0 →
      (listApplication t pid ord true ps pn).totalCount
          = (listApplication t pid ord false ps pn).items.length
      ∧ (listApplication t pid ord true ps pn).items ≠ []
      ∧ (ceilNat (listApplication t pid ord true ps pn).totalCount ps ≤ pn →
          listApplication t pid ord true ps pn
            = listApplication t pid ord true ps
                (ceilNat (listApplication t pid ord true ps pn).totalCount ps)))
    ∧ ((listPlugin dict t pt ord true ps pn).totalCount ≠ 0 →
      (listPlugin dict t pt ord true ps pn).totalCount
          = (listPlugin dict t pt ord false ps pn).items.length
      ∧ (listPlugin dict t pt ord true ps pn).items ≠ []
      ∧ (ceilNat (listPlugin dict t pt ord true ps pn).totalCount ps ≤ pn →
          listPlugin dict t pt ord true ps pn
            = listPlugin dict t pt ord true ps
                (ceilNat (listPlugin dict t pt ord true ps pn).totalCount ps))) := by
  refine ⟨?_, ?_, ?_, ?_⟩
  · intro h
    have hne : (listRecordsPipeline t pid ver ord).length ≠ 0 := h
    obtain ⟨h1, h2⟩ := entityList_pagination (listRecordsPipeline t pid ver ord) ps pn hps hpn hne
    refine ⟨?_, h1, ?_⟩
    · simp only [listPipeline, paginateRecords_all]
    · intro hcl
      simp only [listPipeline] at hcl ⊢
      rw [EntityList.mk.injEq]
      exact ⟨rfl, h2 hcl⟩
  · intro h
    have hne : (listRecordsProjects t ord).length ≠ 0 := h
    obtain ⟨h1, h2⟩ := entityList_pagination (listRecordsProjects t ord) ps pn hps hpn hne
    refine ⟨?_, h1, ?_⟩
    · simp only [listProjects, paginateRecords_all]
    · intro hcl
      simp only [listProjects] at hcl ⊢
      rw [EntityList.mk.injEq]
      exact ⟨rfl, h2 hcl⟩
  · intro h
    have hne : (listRecordsApplication t pid ord).length ≠ 0 := h
    obtain ⟨h1, h2⟩ := entityList_pagination (listRecordsApplication t pid ord) ps pn hps hpn hne
    refine ⟨?_, h1, ?_⟩
    · simp only [listApplication, paginateRecords_all]
    · intro hcl
      simp only [listApplication] at hcl ⊢
      rw [EntityList.mk.injEq]
      exact ⟨rfl, h2 hcl⟩
  · intro h
    have hne : (builtinPlugins dict pt ++ listRecordsPlugin t pt ord).length ≠ 0 := by
      rw [List.length_append]
      exact h
    obtain ⟨h1, h2⟩ := entityList_pagination
      (builtinPlugins dict pt ++ listRecordsPlugin t pt ord) ps pn hps hpn hne
    refine ⟨?_, h1, ?_⟩
    · simp only [listPlugin, paginateRecords_all, List.length_append]
    · intro hcl
      have hcl2 : ceilNat (builtinPlugins dict pt ++ listRecordsPlugin t pt ord).length ps ≤ pn := by
        rw [List.length_append]
        exact hcl
      simp only [listPlugin] at hcl ⊢
      rw [EntityList.mk.injEq]
      refine ⟨rfl, ?_⟩
      have := h2 hcl2
      rw [List.length_append] at this
      exact this

def c4items : Table :=
  [ { id := "pc", type := "PIPELINE#a#latest", pfx := "PIPELINE",
      pipelineId := "a", versionTag := "latest", createAt := 1 },
    { id := "pc", type := "PIPELINE#b#latest", pfx := "PIPELINE",
      pipelineId := "b", versionTag := "latest", createAt := 2 },
    { id := "pc", type := "PIPELINE#c#latest", pfx := "PIPELINE",
      pipelineId := "c", versionTag := "latest", createAt := 3 } ]

theorem claim_C4_witness :
    (listPipeline c4items "" "" "asc" true 2 5).totalCount
        = (listPipeline c4items "" "" "asc" false 2 5).items.length
    ∧ (listPipeline c4items "" "" "asc" true 2 5).items ≠ []
    ∧ (ceilNat (listPipeline c4items "" "" "asc" true 2 5).totalCount 2 ≤ 5 →
        listPipeline c4items "" "" "asc" true 2 5
          = listPipeline c4items "" "" "asc" true 2
              (ceilNat (listPipeline c4items "" "" "asc" true 2 5).totalCount 2)) :=
  (claim_C4 [] c4items "" "" "asc" "" 2 5 (by decide) (by decide)).1 (by decide)

/-
Status reconciliation on reads.
-/

theorem setStatus_self (p : Item) (s : Option String) (h : p.status = s) :
    { p with status := s } = p := by
  cases p
  cases h
  rfl

/-- Effect of the reconciliation block on one pipeline with an execution
arn: the returned item carries the live status and the table is written
back exactly when the stored status differs from it. -/
theorem reconcileOne_spec (eng : List (String × String)) (tbl : Table) (p : Item)
    (hArn : p.executionArn ≠ "") :
    reconcileOne eng tbl p
      = ({ p with status := some (liveStatus eng p) },
         if p.status = some (liveStatus eng p) then tbl
         else updatePipelineStatus tbl { p with status := some (liveStatus eng p) }
           (liveStatus eng p)) := by
  unfold reconcileOne
  dsimp only
  rw [if_pos (by rwa [bne_iff_ne])]
  by_cases hst : p.status = some (liveStatus eng p)
  · have hb : (p.status != some (liveStatus eng p)) = false := by simp [hst]
    rw [hb]
    simp only [Bool.false_eq_true, if_false]
    rw [if_pos hst, setStatus_self p _ hst]
  · have hb : (p.status != some (liveStatus eng p)) = true := by
      simp [bne_iff_ne, hst]
    rw [hb]
    simp only [if_true]
    rw [if_neg hst]

/-- Details read with an execution arn: respond with the live status and
write it back exactly when it differs from the stored one. -/
theorem details_spec (w : World) (pid id : String) (p : Item)
    (h : getPipeline w.table pid id none = some p)
    (hArn : p.executionArn ≠ "") :
    PipelineServ.details w pid id
      = (ApiResult.success { p with status := some (liveStatus w.engine p) },
         { table :=
             if p.status = some (liveStatus w.engine p) then w.table
             else updatePipelineStatus w.table
               { p with status := some (liveStatus w.engine p) } (liveStatus w.engine p),
           engine := w.engine }) := by
  unfold PipelineServ.details
  rw [h]
  dsimp only
  rw [reconcileOne_spec w.engine w.table p hArn]

/-- C6: on a pipeline read carrying an execution handle the service
queries the engine for the live status, responds with it, and writes it
back to the store exactly when it differs from the stored status; the
engine component of the world is never written by the read paths. -/
theorem claim_C6 (w : World) (pid id ver ord : String) (ps pn : Nat)
    (tbl : Table) (p : Item) :
    (getPipeline w.table pid id none = some p → p.executionArn ≠ "" →
      PipelineServ.details w pid id
        = (ApiResult.success { p with status := some (liveStatus w.engine p) },
           { table :=
               if p.status = some (liveStatus w.engine p) then w.table
               else updatePipelineStatus w.table
                 { p with status := some (liveStatus w.engine p) } (liveStatus w.engine p),
             engine := w.engine }))
    ∧ (p.executionArn ≠ "" →
        reconcileOne w.engine tbl p
          = ({ p with status := some (liveStatus w.engine p) },
             if p.status = some (liveStatus w.engine p) then tbl
             else updatePipelineStatus tbl
               { p with status := some (liveStatus w.engine p) } (liveStatus w.engine p)))
    ∧ (PipelineServ.details w pid id).snd.engine = w.engine
    ∧ (PipelineServ.list w pid ver ord ps pn).snd.engine = w.engine := by
  refine ⟨?_, ?_, ?_, ?_⟩
  · intro h hArn
    exact details_spec w pid id p h hArn
  · intro hArn
    exact reconcileOne_spec w.engine tbl p hArn
  · cases hh : getPipeline w.table pid id none <;> simp [PipelineServ.details, hh]
  · rfl

def c6p : Item :=
  { id := "prj", type := "PIPELINE#pp#latest", pfx := "PIPELINE",
    pipelineId := "pp", projectId := "prj", versionTag := "latest",
    version := "1", executionArn := "arn:exec:1", status := some "RUNNING",
    createAt := 4 }

def c6w : World :=
  { table := [c6p], engine := [("arn:exec:1", "SUCCEEDED")] }

theorem claim_C6_witness :
    PipelineServ.details c6w "prj" "pp"
      = (ApiResult.success { c6p with status := some (liveStatus c6w.engine c6p) },
         { table :=
             if c6p.status = some (liveStatus c6w.engine c6p) then c6w.table
             else updatePipelineStatus c6w.table
               { c6p with status := some (liveStatus c6w.engine c6p) }
               (liveStatus c6w.engine c6p),
           engine := c6w.engine })
    ∧ (reconcileOne c6w.engine [] c6p
        = ({ c6p with status := some (liveStatus c6w.engine c6p) },
           if c6p.status = some (liveStatus c6w.engine c6p) then ([] : Table)
           else updatePipelineStatus [] { c6p with status := some (liveStatus c6w.engine c6p) }
             (liveStatus c6w.engine c6p)))
    ∧ (PipelineServ.details c6w "prj" "pp").snd.engine = c6w.engine
    ∧ (PipelineServ.list c6w "" "" "asc" 10 1).snd.engine = c6w.engine := by
  have hc := claim_C6 c6w "prj" "pp" "" "asc" 10 1 [] c6p
  exact ⟨hc.1 (by decide) (by decide), hc.2.1 (by decide), hc.2.2.1, hc.2.2.2⟩

/-- C9: when the engine returns undefined for a pipeline's execution arn,
the read treats the live status as FAILED: the pipeline is returned with
status FAILED, and FAILED is written back exactly when the stored status
was not already FAILED. -/
theorem claim_C9 (w : World) (pid id : String) (tbl : Table) (p : Item)
    (h : getPipeline w.table pid id none = some p)
    (hArn : p.executionArn ≠ "")
    (hEng : engineLookup w.engine p.executionArn = none) :
    (PipelineServ.details w pid id).fst
        = ApiResult.success { p with status := some "FAILED" }
    ∧ (p.status ≠ some "FAILED" →
        (PipelineServ.details w pid id).snd.table
          = updatePipelineStatus w.table { p with status := some "FAILED" } "FAILED")
    ∧ (p.status = some "FAILED" →
        (PipelineServ.details w pid id).snd.table = w.table)
    ∧ (reconcileOne w.engine tbl p).fst = { p with status := some "FAILED" } := by
  have hlive : liveStatus w.engine p = "FAILED" := by
    unfold liveStatus
    rw [hEng]
    rfl
  have hdet := details_spec w pid id p h hArn
  rw [hlive] at hdet
  have hrec := reconcileOne_spec w.engine tbl p hArn
  rw [hlive] at hrec
  refine ⟨?_, ?_, ?_, ?_⟩
  · rw [hdet]
  · intro hns
    rw [hdet]
    dsimp only
    rw [if_neg hns]
  · intro hs
    rw [hdet]
    dsimp only
    rw [if_pos hs]
  · rw [hrec]

def c9p : Item :=
  { id := "prj9", type := "PIPELINE#p9#latest", pfx := "PIPELINE",
    pipelineId := "p9", projectId := "prj9", versionTag := "latest",
    version := "1", executionArn := "arn:exec:9", status := some "RUNNING",
    createAt := 6 }

def c9w : World := { table := [c9p], engine := [] }

theorem claim_C9_witness :
    (PipelineServ.details c9w "prj9" "p9").fst
        = ApiResult.success { c9p with status := some "FAILED" }
    ∧ (c9p.status ≠ some "FAILED" →
        (PipelineServ.details c9w "prj9" "p9").snd.table
          = updatePipelineStatus c9w.table { c9p with status := some "FAILED" } "FAILED")
    ∧ (c9p.status = some "FAILED" →
        (PipelineServ.details c9w "prj9" "p9").snd.table = c9w.table)
    ∧ (reconcileOne c9w.engine [] c9p).fst = { c9p with status := some "FAILED" } :=
  claim_C9 c9w "prj9" "p9" [] c9p (by decide) (by decide) (by decide)

end ClickStream
